import Mathlib

/-!
Shallow embedding of the CrabNets topology engine (src/lib.rs, src/locales.rs,
src/topology_tests.rs) and verification of its specification claims.

Modelling conventions:
* Vertex identifiers are `Nat` (the Rust code is generic over `Id`; the claims
  instantiate it at unsigned integers whose minimum is 0 and whose successor is +1).
* Edge identifiers are `Nat`; simple locales ignore them and return the default 0.
* `HashMap` is modelled as an insertion-ordered association list, `HashSet` as an
  insertion-ordered duplicate-free list; iteration order of the model is list order,
  one admissible order of the Rust hash containers.
* Attribute collections are only required to be default-constructible and cloneable
  and are never inspected by the claims, so they are modelled by `Unit`; what matters
  is *where* a collection is stored, i.e. the `Option Unit` slots below.
* A Rust `CrabNetsResult` is modelled as `Option` (`none` = `Err`); a panic reached
  through `unwrap`/indexing is modelled explicitly where it can actually occur.
-/

namespace CrabNets

/-- Direction of an edge, as reported relative to the query order (lib.rs). -/
inductive EdgeDirection where
  | Undirected
  | Directed1to2
  | Directed2to1
deriving DecidableEq

/-- Relation of a new edge to the locale it is inserted into (locales.rs). -/
inductive EdgeToVertexRelation where
  | Undirected
  | Incoming
  | Outgoing
deriving DecidableEq

/-- Item produced by the edge iterators (lib.rs, struct EdgeIteratorItem). -/
structure EdgeIteratorItem where
  direction : EdgeDirection
  edge_id : Nat
  id1 : Nat
  id2 : Nat
deriving DecidableEq

/-- Lookup in an association list, modelling `HashMap::get`. -/
def mapGet {β : Type} : List (Nat × β) → Nat → Option β
  | [], _ => none
  | (k', v) :: rest, k => if k' = k then some v else mapGet rest k

/-- Key membership, modelling `HashMap::contains_key` / `HashSet::contains`. -/
def mapContains {β : Type} (m : List (Nat × β)) (k : Nat) : Bool :=
  (mapGet m k).isSome

/-- Insertion, modelling `HashMap::insert`: replaces the value in place when the key
is present, otherwise appends the binding. -/
def mapInsert {β : Type} : List (Nat × β) → Nat → β → List (Nat × β)
  | [], k, v => [(k, v)]
  | (k', v') :: rest, k, v =>
      if k' = k then (k, v) :: rest else (k', v') :: mapInsert rest k v

/-- Removal, modelling `HashMap::remove` (all bindings of the key are dropped;
maps built by `mapInsert` hold at most one). -/
def mapRemove {β : Type} : List (Nat × β) → Nat → List (Nat × β)
  | [], _ => []
  | (k', v') :: rest, k =>
      if k' = k then mapRemove rest k else (k', v') :: mapRemove rest k

/-- Set insertion, modelling `HashSet::insert`. -/
def setInsert (s : List Nat) (k : Nat) : List Nat :=
  if s.contains k then s else s ++ [k]

/-- Set removal, modelling `HashSet::remove`. -/
def setRemove (s : List Nat) (k : Nat) : List Nat :=
  s.filter (fun x => x != k)

/-- Locale for simple undirected graphs (locales.rs, SimpleUndirectedLocale):
one neighbour map whose value records whether this locale owns that edge's
attribute collection. -/
structure SimpleUndirectedLocale where
  associated_vertex_id : Nat
  attributes : Unit
  edges : List (Nat × Option Unit)
deriving DecidableEq

namespace SimpleUndirectedLocale

/-- Constructor `SimpleUndirectedLocale::new`. -/
def new (associated_vertex_id : Nat) : SimpleUndirectedLocale :=
  { associated_vertex_id := associated_vertex_id, attributes := (), edges := [] }

/-- locales.rs, SimpleUndirectedLocale::add_e: the relation and edge id are ignored;
the stored slot is `Some(fresh collection)` exactly when `store_edge_attributes`. -/
def add_e (l : SimpleUndirectedLocale) (id2 : Nat) (_relation : EdgeToVertexRelation)
    (_edge_id : Option Nat) (store_edge_attributes : Bool) : Nat × SimpleUndirectedLocale :=
  (0, { l with edges :=
        mapInsert l.edges id2 (if store_edge_attributes then some () else none) })

/-- locales.rs, SimpleUndirectedLocale::count_incident_e. -/
def count_incident_e (l : SimpleUndirectedLocale) : Nat :=
  l.edges.length

/-- locales.rs, SimpleUndirectedLocale::count_neighbours. -/
def count_neighbours (l : SimpleUndirectedLocale) : Nat :=
  l.edges.length

/-- locales.rs, SimpleUndirectedLocale::count_neighbours_in. -/
def count_neighbours_in (_l : SimpleUndirectedLocale) : Nat :=
  0

/-- locales.rs, SimpleUndirectedLocale::count_neighbours_out. -/
def count_neighbours_out (_l : SimpleUndirectedLocale) : Nat :=
  0

/-- locales.rs, SimpleUndirectedLocale::count_neighbours_undir. -/
def count_neighbours_undir (l : SimpleUndirectedLocale) : Nat :=
  l.edges.length

/-- locales.rs, SimpleUndirectedLocale::e_attrs: `Some` exactly when the neighbour
is recorded and this locale owns the attribute collection. -/
def e_attrs (l : SimpleUndirectedLocale) (id2 : Nat) : Option Unit :=
  match mapGet l.edges id2 with
  | some value => value
  | none => none

/-- locales.rs, SimpleUndirectedLocale::e_direction. -/
def e_direction (l : SimpleUndirectedLocale) (id2 : Nat) : Option EdgeDirection :=
  if mapContains l.edges id2 then some EdgeDirection.Undirected else none

/-- locales.rs, SimpleUndirectedLocale::iter_incident_e. -/
def iter_incident_e (l : SimpleUndirectedLocale) : List EdgeIteratorItem :=
  l.edges.map (fun x =>
    { direction := EdgeDirection.Undirected, edge_id := 0,
      id1 := l.associated_vertex_id, id2 := x.1 })

/-- locales.rs, SimpleUndirectedLocale::iter_incident_e_with_attrs: the owned-edges
iterator, keeping only neighbours with `associated_vertex_id <= neighbour`. -/
def iter_incident_e_with_attrs (l : SimpleUndirectedLocale) : List EdgeIteratorItem :=
  (l.edges.filter (fun x => l.associated_vertex_id ≤ x.1)).map (fun x =>
    { direction := EdgeDirection.Undirected, edge_id := 0,
      id1 := l.associated_vertex_id, id2 := x.1 })

/-- locales.rs, SimpleUndirectedLocale::iter_neighbours. -/
def iter_neighbours (l : SimpleUndirectedLocale) : List Nat :=
  l.edges.map Prod.fst

/-- locales.rs, SimpleUndirectedLocale::iter_neighbours_out (always empty). -/
def iter_neighbours_out (_l : SimpleUndirectedLocale) : List Nat :=
  []

/-- locales.rs, SimpleUndirectedLocale::iter_neighbours_undir. -/
def iter_neighbours_undir (l : SimpleUndirectedLocale) : List Nat :=
  l.edges.map Prod.fst

/-- locales.rs, SimpleUndirectedLocale::remove_e: reports whether the neighbour was
recorded and drops it. -/
def remove_e (l : SimpleUndirectedLocale) (id2 : Nat) : Bool × SimpleUndirectedLocale :=
  (mapContains l.edges id2, { l with edges := mapRemove l.edges id2 })

end SimpleUndirectedLocale

/-- locales.rs, struct SimpleEdgeCollection: the three-way partition of a directed
locale's adjacency. -/
structure SimpleEdgeCollection where
  incoming : List Nat
  outgoing : List (Nat × Unit)
  undirected : List (Nat × Option Unit)
deriving DecidableEq

/-- Locale for simple directed graphs (locales.rs, SimpleDirectedLocale). -/
structure SimpleDirectedLocale where
  associated_vertex_id : Nat
  attributes : Unit
  edges : SimpleEdgeCollection
deriving DecidableEq

namespace SimpleDirectedLocale

/-- Constructor `SimpleDirectedLocale::new`. -/
def new (associated_vertex_id : Nat) : SimpleDirectedLocale :=
  { associated_vertex_id := associated_vertex_id, attributes := (),
    edges := { incoming := [], outgoing := [], undirected := [] } }

/-- locales.rs, SimpleDirectedLocale::add_e: first purges any prior record of `id2`
from all three buckets, then inserts according to the relation; outgoing edges
always receive a fresh attribute collection, incoming ones never do, undirected
ones do exactly when `store_edge_attributes`. -/
def add_e (l : SimpleDirectedLocale) (id2 : Nat) (relation : EdgeToVertexRelation)
    (_edge_id : Option Nat) (store_edge_attributes : Bool) : Nat × SimpleDirectedLocale :=
  let purged : SimpleEdgeCollection :=
    { incoming := setRemove l.edges.incoming id2,
      outgoing := mapRemove l.edges.outgoing id2,
      undirected := mapRemove l.edges.undirected id2 }
  let inserted : SimpleEdgeCollection :=
    match relation with
    | EdgeToVertexRelation.Incoming =>
        { purged with incoming := setInsert purged.incoming id2 }
    | EdgeToVertexRelation.Outgoing =>
        { purged with outgoing := mapInsert purged.outgoing id2 () }
    | EdgeToVertexRelation.Undirected =>
        let slot : Option Unit := if store_edge_attributes then some () else none
        { purged with undirected := mapInsert purged.undirected id2 slot }
  (0, { l with edges := inserted })

/-- locales.rs, SimpleDirectedLocale::count_incident_e. -/
def count_incident_e (l : SimpleDirectedLocale) : Nat :=
  l.edges.incoming.length + l.edges.outgoing.length + l.edges.undirected.length

/-- locales.rs, SimpleDirectedLocale::count_neighbours. -/
def count_neighbours (l : SimpleDirectedLocale) : Nat :=
  l.edges.incoming.length + l.edges.outgoing.length + l.edges.undirected.length

/-- locales.rs, SimpleDirectedLocale::count_neighbours_in. -/
def count_neighbours_in (l : SimpleDirectedLocale) : Nat :=
  l.edges.incoming.length

/-- locales.rs, SimpleDirectedLocale::count_neighbours_out. -/
def count_neighbours_out (l : SimpleDirectedLocale) : Nat :=
  l.edges.outgoing.length

/-- locales.rs, SimpleDirectedLocale::count_neighbours_undir. -/
def count_neighbours_undir (l : SimpleDirectedLocale) : Nat :=
  l.edges.undirected.length

/-- locales.rs, SimpleDirectedLocale::e_attrs: outgoing edges always answer from
this locale; undirected ones answer from the stored optional slot; incoming ones
never answer. -/
def e_attrs (l : SimpleDirectedLocale) (id2 : Nat) : Option Unit :=
  if mapContains l.edges.outgoing id2 then
    some ()
  else if mapContains l.edges.undirected id2 then
    (mapGet l.edges.undirected id2).getD none
  else
    none

/-- locales.rs, SimpleDirectedLocale::e_direction. -/
def e_direction (l : SimpleDirectedLocale) (id2 : Nat) : Option EdgeDirection :=
  if l.edges.incoming.contains id2 then
    some EdgeDirection.Directed2to1
  else if mapContains l.edges.outgoing id2 then
    some EdgeDirection.Directed1to2
  else if mapContains l.edges.undirected id2 then
    some EdgeDirection.Undirected
  else
    none

/-- locales.rs, SimpleDirectedLocale::iter_incident_e: incoming, then outgoing,
then undirected records. -/
def iter_incident_e (l : SimpleDirectedLocale) : List EdgeIteratorItem :=
  l.edges.incoming.map (fun x =>
    { direction := EdgeDirection.Directed2to1, edge_id := 0,
      id1 := l.associated_vertex_id, id2 := x })
  ++ l.edges.outgoing.map (fun x =>
    { direction := EdgeDirection.Directed1to2, edge_id := 0,
      id1 := l.associated_vertex_id, id2 := x.1 })
  ++ l.edges.undirected.map (fun x =>
    { direction := EdgeDirection.Undirected, edge_id := 0,
      id1 := l.associated_vertex_id, id2 := x.1 })

/-- locales.rs, SimpleDirectedLocale::iter_incident_e_with_attrs: all outgoing
records plus the undirected records with `associated_vertex_id <= neighbour`
(the direction labels of the two parts are swapped exactly as in the source). -/
def iter_incident_e_with_attrs (l : SimpleDirectedLocale) : List EdgeIteratorItem :=
  l.edges.outgoing.map (fun x =>
    { direction := EdgeDirection.Undirected, edge_id := 0,
      id1 := l.associated_vertex_id, id2 := x.1 })
  ++ (l.edges.undirected.filter (fun x => l.associated_vertex_id ≤ x.1)).map (fun x =>
    { direction := EdgeDirection.Directed1to2, edge_id := 0,
      id1 := l.associated_vertex_id, id2 := x.1 })

/-- locales.rs, SimpleDirectedLocale::iter_neighbours. -/
def iter_neighbours (l : SimpleDirectedLocale) : List Nat :=
  l.edges.incoming ++ l.edges.outgoing.map Prod.fst ++ l.edges.undirected.map Prod.fst

/-- locales.rs, SimpleDirectedLocale::iter_neighbours_out. -/
def iter_neighbours_out (l : SimpleDirectedLocale) : List Nat :=
  l.edges.outgoing.map Prod.fst

/-- locales.rs, SimpleDirectedLocale::iter_neighbours_undir. -/
def iter_neighbours_undir (l : SimpleDirectedLocale) : List Nat :=
  l.edges.undirected.map Prod.fst

/-- locales.rs, SimpleDirectedLocale::remove_e. -/
def remove_e (l : SimpleDirectedLocale) (id2 : Nat) : Bool × SimpleDirectedLocale :=
  (l.edges.incoming.contains id2 || mapContains l.edges.outgoing id2
     || mapContains l.edges.undirected id2,
   { l with edges :=
      { incoming := setRemove l.edges.incoming id2,
        outgoing := mapRemove l.edges.outgoing id2,
        undirected := mapRemove l.edges.undirected id2 } })

end SimpleDirectedLocale

/-- The Locale trait (locales.rs) as a record of operations, over which the Graph
container is generic exactly as the Rust container is generic over `LocaleType`.
Mutating trait methods are modelled as functions returning the updated locale. -/
structure LocaleOps (L : Type) where
  new : Nat → L
  add_e : L → Nat → EdgeToVertexRelation → Option Nat → Bool → Nat × L
  count_incident_e : L → Nat
  count_neighbours : L → Nat
  count_neighbours_in : L → Nat
  count_neighbours_out : L → Nat
  count_neighbours_undir : L → Nat
  e_attrs : L → Nat → Option Unit
  e_direction : L → Nat → Option EdgeDirection
  iter_incident_e : L → List EdgeIteratorItem
  iter_incident_e_with_attrs : L → List EdgeIteratorItem
  iter_neighbours : L → List Nat
  iter_neighbours_out : L → List Nat
  iter_neighbours_undir : L → List Nat
  remove_e : L → Nat → Bool × L

/-- The trait implementation for the simple-undirected locale. -/
def uOps : LocaleOps SimpleUndirectedLocale :=
  { new := SimpleUndirectedLocale.new,
    add_e := SimpleUndirectedLocale.add_e,
    count_incident_e := SimpleUndirectedLocale.count_incident_e,
    count_neighbours := SimpleUndirectedLocale.count_neighbours,
    count_neighbours_in := SimpleUndirectedLocale.count_neighbours_in,
    count_neighbours_out := SimpleUndirectedLocale.count_neighbours_out,
    count_neighbours_undir := SimpleUndirectedLocale.count_neighbours_undir,
    e_attrs := SimpleUndirectedLocale.e_attrs,
    e_direction := SimpleUndirectedLocale.e_direction,
    iter_incident_e := SimpleUndirectedLocale.iter_incident_e,
    iter_incident_e_with_attrs := SimpleUndirectedLocale.iter_incident_e_with_attrs,
    iter_neighbours := SimpleUndirectedLocale.iter_neighbours,
    iter_neighbours_out := SimpleUndirectedLocale.iter_neighbours_out,
    iter_neighbours_undir := SimpleUndirectedLocale.iter_neighbours_undir,
    remove_e := SimpleUndirectedLocale.remove_e }

/-- The trait implementation for the simple-directed locale. -/
def dOps : LocaleOps SimpleDirectedLocale :=
  { new := SimpleDirectedLocale.new,
    add_e := SimpleDirectedLocale.add_e,
    count_incident_e := SimpleDirectedLocale.count_incident_e,
    count_neighbours := SimpleDirectedLocale.count_neighbours,
    count_neighbours_in := SimpleDirectedLocale.count_neighbours_in,
    count_neighbours_out := SimpleDirectedLocale.count_neighbours_out,
    count_neighbours_undir := SimpleDirectedLocale.count_neighbours_undir,
    e_attrs := SimpleDirectedLocale.e_attrs,
    e_direction := SimpleDirectedLocale.e_direction,
    iter_incident_e := SimpleDirectedLocale.iter_incident_e,
    iter_incident_e_with_attrs := SimpleDirectedLocale.iter_incident_e_with_attrs,
    iter_neighbours := SimpleDirectedLocale.iter_neighbours,
    iter_neighbours_out := SimpleDirectedLocale.iter_neighbours_out,
    iter_neighbours_undir := SimpleDirectedLocale.iter_neighbours_undir,
    remove_e := SimpleDirectedLocale.remove_e }

/-- The graph container (lib.rs, struct Graph): vertex-id-to-locale mapping plus
the smallest unused vertex identifier. -/
structure Graph (L : Type) where
  edge_list : List (Nat × L)
  min_free_vertex_id : Nat
deriving DecidableEq

/-- Outcome of `Graph::e_attrs` / `e_attrs_mut`: `ok` models `Ok(reference)`,
`err` models `Err(CrabNetsError)`, `panic` models the `unwrap()` of `None`
inside the `Ok`-branches of the source. -/
inductive AttrsResult where
  | ok
  | err
  | panic
deriving DecidableEq

namespace Graph

/-- lib.rs, Graph::new. -/
def new {L : Type} : Graph L :=
  { edge_list := [], min_free_vertex_id := 0 }

/-- lib.rs, Graph::contains_v. -/
def contains_v {L : Type} (g : Graph L) (id : Nat) : Bool :=
  mapContains g.edge_list id

/-- lib.rs, Graph::count_v. -/
def count_v {L : Type} (g : Graph L) : Nat :=
  g.edge_list.length

/-- lib.rs, Graph::contains_e: consults `id1`'s locale; the edge id is passed on
and ignored by simple locales. -/
def contains_e {L : Type} (ops : LocaleOps L) (g : Graph L) (id1 id2 : Nat)
    (_edge_id : Nat) : Option EdgeDirection :=
  match mapGet g.edge_list id1 with
  | some value => ops.e_direction value id2
  | none => none

/-- lib.rs, Graph::count_e: sum of per-locale incident counts, halved (integer
division), for every locale type. -/
def count_e {L : Type} (ops : LocaleOps L) (g : Graph L) : Nat :=
  (g.edge_list.map (fun p => ops.count_incident_e p.2)).sum / 2

/-- lib.rs, Graph::e_attrs: checks both vertices, resolves the direction via
`contains_e`, then routes to the owning endpoint (undirected: smaller id;
1-to-2: `id1`; 2-to-1: `id2`) and unwraps the locale's answer. -/
def e_attrs {L : Type} (ops : LocaleOps L) (g : Graph L) (id1 id2 edge_id : Nat) :
    AttrsResult :=
  if mapContains g.edge_list id1 then
    if mapContains g.edge_list id2 then
      match contains_e ops g id1 id2 edge_id with
      | some EdgeDirection.Undirected =>
          match mapGet g.edge_list (if id1 ≤ id2 then id1 else id2) with
          | some locale =>
              match ops.e_attrs locale (if id1 ≤ id2 then id2 else id1) with
              | some _ => AttrsResult.ok
              | none => AttrsResult.panic
          | none => AttrsResult.panic
      | some EdgeDirection.Directed1to2 =>
          match mapGet g.edge_list id1 with
          | some locale =>
              match ops.e_attrs locale id2 with
              | some _ => AttrsResult.ok
              | none => AttrsResult.panic
          | none => AttrsResult.panic
      | some EdgeDirection.Directed2to1 =>
          match mapGet g.edge_list id2 with
          | some locale =>
              match ops.e_attrs locale id1 with
              | some _ => AttrsResult.ok
              | none => AttrsResult.panic
          | none => AttrsResult.panic
      | none => AttrsResult.err
    else AttrsResult.err
  else AttrsResult.err

/-- lib.rs, Graph::iter_e: concatenation of each locale's owned-edges iterator. -/
def iter_e {L : Type} (ops : LocaleOps L) (g : Graph L) : List EdgeIteratorItem :=
  (g.edge_list.map (fun p => ops.iter_incident_e_with_attrs p.2)).flatten

/-- lib.rs, Graph::iter_v. -/
def iter_v {L : Type} (g : Graph L) : List Nat :=
  g.edge_list.map Prod.fst

/-- lib.rs, Graph::v_degree (`None` models the not-found error). -/
def v_degree {L : Type} (ops : LocaleOps L) (g : Graph L) (id : Nat) : Option Nat :=
  (mapGet g.edge_list id).map ops.count_neighbours

/-- lib.rs, Graph::v_degree_in. -/
def v_degree_in {L : Type} (ops : LocaleOps L) (g : Graph L) (id : Nat) : Option Nat :=
  (mapGet g.edge_list id).map ops.count_neighbours_in

/-- lib.rs, Graph::v_degree_out. -/
def v_degree_out {L : Type} (ops : LocaleOps L) (g : Graph L) (id : Nat) : Option Nat :=
  (mapGet g.edge_list id).map ops.count_neighbours_out

/-- lib.rs, Graph::v_degree_undir. -/
def v_degree_undir {L : Type} (ops : LocaleOps L) (g : Graph L) (id : Nat) : Option Nat :=
  (mapGet g.edge_list id).map ops.count_neighbours_undir

/-- The `while self.edge_list.contains_key(&self.min_free_vertex_id)` loop of
lib.rs, Graph::add_v, with an explicit iteration bound; `m.length + 1` iterations
always suffice, since each iteration steps past a distinct occupied key. -/
def advanceFree {L : Type} (m : List (Nat × L)) : Nat → Nat → Nat
  | 0, k => k
  | fuel + 1, k => if mapContains m k then advanceFree m fuel (k + 1) else k

/-- lib.rs, Graph::add_v: insert a fresh locale at the explicit id (replacing any
prior locale there) or at `min_free_vertex_id`, then advance
`min_free_vertex_id` past occupied values. -/
def add_v {L : Type} (ops : LocaleOps L) (g : Graph L) (id : Option Nat) :
    Nat × Graph L :=
  let return_value : Nat :=
    match id with
    | some value => value
    | none => g.min_free_vertex_id
  let el : List (Nat × L) :=
    mapInsert g.edge_list return_value (ops.new return_value)
  (return_value,
   { edge_list := el,
     min_free_vertex_id := advanceFree el (el.length + 1) g.min_free_vertex_id })

/-- lib.rs, Graph::add_e: fails (`none`) when either vertex is missing; otherwise
inserts into `id1`'s locale with relation Outgoing/Undirected and
`store_edge_attributes = directed || id1 <= id2`, then into `id2`'s locale (as
seen after the first insertion, which matters for self-loops) with relation
Incoming/Undirected and `store_edge_attributes = !directed && id2 <= id1`. -/
def add_e {L : Type} (ops : LocaleOps L) (g : Graph L) (id1 id2 : Nat)
    (directed : Bool) (edge_id : Option Nat) : Option (Nat × Graph L) :=
  if contains_v g id1 then
    if contains_v g id2 then
      match mapGet g.edge_list id1 with
      | some locale1 =>
          let step1 : Nat × L :=
            ops.add_e locale1 id2
              (if directed then EdgeToVertexRelation.Outgoing
               else EdgeToVertexRelation.Undirected)
              edge_id (directed || decide (id1 ≤ id2))
          let el1 : List (Nat × L) := mapInsert g.edge_list id1 step1.2
          match mapGet el1 id2 with
          | some locale2 =>
              let step2 : Nat × L :=
                ops.add_e locale2 id1
                  (if directed then EdgeToVertexRelation.Incoming
                   else EdgeToVertexRelation.Undirected)
                  (some step1.1) (!directed && decide (id2 ≤ id1))
              some (step1.1,
                { g with edge_list := mapInsert el1 id2 step2.2 })
          | none => none
      | none => none
    else none
  else none

/-- lib.rs, Graph::remove_e: fails (`none`) when either vertex is missing;
otherwise removes from `id1`'s locale, then from `id2`'s locale (as seen after
the first removal), reporting the second removal's answer. -/
def remove_e {L : Type} (ops : LocaleOps L) (g : Graph L) (id1 id2 : Nat)
    (_edge_id : Nat) : Option (Bool × Graph L) :=
  if mapContains g.edge_list id1 then
    if mapContains g.edge_list id2 then
      match mapGet g.edge_list id1 with
      | some locale1 =>
          let step1 : Bool × L := ops.remove_e locale1 id2
          let el1 : List (Nat × L) := mapInsert g.edge_list id1 step1.2
          match mapGet el1 id2 with
          | some locale2 =>
              let step2 : Bool × L := ops.remove_e locale2 id1
              some (step2.1, { g with edge_list := mapInsert el1 id2 step2.2 })
          | none => none
      | none => none
    else none
  else none

/-- The cascading loop of lib.rs, Graph::remove_v: every incident edge collected
from the removed vertex's locale is removed through `Graph::remove_e(..).unwrap()`;
a failing removal is that unwrap's panic, modelled as `none`. -/
def removeAllEdges {L : Type} (ops : LocaleOps L) :
    Graph L → List EdgeIteratorItem → Option (Graph L)
  | g, [] => some g
  | g, e :: rest =>
      match remove_e ops g e.id1 e.id2 e.edge_id with
      | some (_, g') => removeAllEdges ops g' rest
      | none => none

/-- lib.rs, Graph::remove_v: reports `false` for an absent vertex; otherwise
removes every incident edge (which can panic on an edge towards a missing
neighbour, hence the `Option`), deletes the locale entry, and lowers
`min_free_vertex_id` to the removed id when that id is smaller. -/
def remove_v {L : Type} (ops : LocaleOps L) (g : Graph L) (id : Nat) :
    Option (Bool × Graph L) :=
  if !(mapContains g.edge_list id) then
    some (false, g)
  else
    match mapGet g.edge_list id with
    | none => none
    | some locale =>
        match removeAllEdges ops g (ops.iter_incident_e locale) with
        | none => none
        | some g' =>
            some (true,
              { edge_list := mapRemove g'.edge_list id,
                min_free_vertex_id :=
                  if g'.min_free_vertex_id > id then id
                  else g'.min_free_vertex_id })

end Graph

/-- Result of running one of the traversal decision procedures: `val` is the
returned boolean, `panic` a panic reached inside the loop, `fuelOut` exhaustion
of the explicit iteration bound used by the model (never hit in the concrete
runs below). -/
inductive RunResult where
  | val : Bool → RunResult
  | panic
  | fuelOut
deriving DecidableEq

namespace Graph

/-- Modelled from the spec: `Graph::iter_adjacent_out` is used by
topology_tests.rs but absent from src; per section 4.4 it is the outgoing
adjacency view and per section 7 it is fallible, returning the not-found error
(`none`) for a missing vertex. -/
def iter_adjacent_out {L : Type} (ops : LocaleOps L) (g : Graph L) (id : Nat) :
    Option (List Nat) :=
  (mapGet g.edge_list id).map ops.iter_neighbours_out

/-- Modelled from the spec: `Graph::iter_adjacent_undir`, the undirected
adjacency view, fallible exactly like `iter_adjacent_out`. -/
def iter_adjacent_undir {L : Type} (ops : LocaleOps L) (g : Graph L) (id : Nat) :
    Option (List Nat) :=
  (mapGet g.edge_list id).map ops.iter_neighbours_undir

/-- The body of the breadth-first loop of topology_tests.rs, Graph::is_connected.
The queue is FIFO (`pop_front` / `extend`); the visited set is an
insertion-ordered duplicate-free list. Looking up a queued vertex that is not in
the graph is the `self.edge_list.get(&curr_vertex_id).unwrap()` panic of the
source. The neighbour view is the locale's `iter_adjacent()`, which is absent
from src and modelled from the spec (section 4.4) as the full neighbour
iterator. -/
def bfsLoop {L : Type} (ops : LocaleOps L) (g : Graph L) :
    Nat → List Nat → List Nat → RunResult
  | 0, _, _ => RunResult.fuelOut
  | fuel + 1, queue, visited =>
      match queue with
      | [] => RunResult.val (visited.length == count_v g)
      | cur :: rest =>
          let visited' := setInsert visited cur
          match mapGet g.edge_list cur with
          | none => RunResult.panic
          | some locale =>
              bfsLoop ops g fuel
                (rest ++ (ops.iter_neighbours locale).filter
                  (fun x => !(visited'.contains x)))
                visited'

/-- Iteration bound for the traversal loops: generous upper bound on the number
of loop iterations in terms of the sizes of the graph's adjacency records. -/
def loopFuel {L : Type} (ops : LocaleOps L) (g : Graph L) : Nat :=
  (count_v g + (g.edge_list.map (fun p => ops.count_incident_e p.2)).sum + 2) ^ 3 + 1

/-- topology_tests.rs, Graph::is_connected: empty graph is connected; otherwise
breadth-first traversal from the first vertex of `iter_v()`, comparing the
visited count with `count_v()`. -/
def is_connected {L : Type} (ops : LocaleOps L) (g : Graph L) : RunResult :=
  match iter_v g with
  | [] => RunResult.val true
  | v :: _ => bfsLoop ops g (loopFuel ops g) [v] []

/-- The `outgoing ++ undirected` adjacency used by is_strongly_connected:
`self.iter_adjacent_out(id).unwrap().chain(self.iter_adjacent_undir(id).unwrap())`;
`none` is the panic of either unwrap. -/
def adjOutUndir {L : Type} (ops : LocaleOps L) (g : Graph L) (id : Nat) :
    Option (List Nat) :=
  match iter_adjacent_out ops g id, iter_adjacent_undir ops g id with
  | some a, some b => some (a ++ b)
  | _, _ => none

/-- The post-processing loop of a popped, already-visited vertex in
topology_tests.rs, Graph::is_strongly_connected: for each adjacent vertex, lower
the current vertex's back link by the adjacent one's back link; indexing a
back link that was never created is the source's `back_links[&adjacent_id]`
panic, modelled as `none`. -/
def lowerBackLinks : List (Nat × Nat) → Nat → List Nat → Option (List (Nat × Nat))
  | back_links, _, [] => some back_links
  | back_links, cur, a :: rest =>
      match mapGet back_links a, mapGet back_links cur with
      | some adjacent_back_link, some curr_back_link =>
          lowerBackLinks (mapInsert back_links cur (min adjacent_back_link curr_back_link))
            cur rest
      | _, _ => none

/-- The adjacency loop of a newly-visited vertex in is_strongly_connected: for a
visited adjacent vertex, overwrite the current back link with
`indices[cur].min(indices[adjacent])`; otherwise push the adjacent vertex.
Returns the updated back links and the pushed vertices in push order. -/
def visitAdjacents (indices : List (Nat × Nat)) (visited : List Nat) (cur : Nat) :
    List (Nat × Nat) → List Nat → List Nat → Option (List (Nat × Nat) × List Nat)
  | back_links, pushed, [] => some (back_links, pushed.reverse)
  | back_links, pushed, a :: rest =>
      if visited.contains a then
        match mapGet indices cur, mapGet indices a with
        | some icur, some ia =>
            visitAdjacents indices visited cur
              (mapInsert back_links cur (min icur ia)) pushed rest
        | _, _ => none
      else
        visitAdjacents indices visited cur back_links (a :: pushed) rest

/-- The main loop of topology_tests.rs, Graph::is_strongly_connected. The stack
is LIFO with its top at the head of the list; `indices` and `back_links` are
maps from vertex to discovery index and low-link value. A vertex on top of the
stack that is already visited is popped and post-processed, with the early exit
when its back link equals its index while the stack is still non-empty; an
unvisited one is marked, numbered, and its unvisited adjacents are pushed. -/
def tarjanLoop {L : Type} (ops : LocaleOps L) (g : Graph L) :
    Nat → List Nat → Nat → List (Nat × Nat) → List (Nat × Nat) → List Nat → RunResult
  | 0, _, _, _, _, _ => RunResult.fuelOut
  | fuel + 1, stack, curr_index, indices, back_links, visited =>
      match stack with
      | [] => RunResult.val (visited.length == count_v g)
      | cur :: rest =>
          if visited.contains cur then
            match adjOutUndir ops g cur with
            | none => RunResult.panic
            | some adjacents =>
                match lowerBackLinks back_links cur adjacents with
                | none => RunResult.panic
                | some back_links' =>
                    match mapGet back_links' cur, mapGet indices cur with
                    | some bl, some idx =>
                        if bl == idx && !rest.isEmpty then
                          RunResult.val false
                        else
                          tarjanLoop ops g fuel rest curr_index indices back_links' visited
                    | _, _ => RunResult.panic
          else
            let visited' := setInsert visited cur
            let indices' := mapInsert indices cur curr_index
            let back_links' := mapInsert back_links cur curr_index
            match adjOutUndir ops g cur with
            | none => RunResult.panic
            | some adjacents =>
                match visitAdjacents indices' visited' cur back_links' [] adjacents with
                | none => RunResult.panic
                | some (back_links'', pushed) =>
                    tarjanLoop ops g fuel (pushed.reverse ++ cur :: rest)
                      (curr_index + 1) indices' back_links'' visited'

/-- topology_tests.rs, Graph::is_strongly_connected: empty graph is strongly
connected; otherwise the early-exiting Tarjan-style traversal from the first
vertex of `iter_v()`. -/
def is_strongly_connected {L : Type} (ops : LocaleOps L) (g : Graph L) : RunResult :=
  match iter_v g with
  | [] => RunResult.val true
  | v :: _ => tarjanLoop ops g (loopFuel ops g) [v] 0 [] [] []

end Graph

/-- Graphs reachable from the empty graph through the public mutation surface:
`add_v`, `add_e`, `remove_e`, `remove_v` (each mutation taken only when the
operation returns without failing or panicking). -/
inductive Reachable {L : Type} (ops : LocaleOps L) : Graph L → Prop where
  | empty : Reachable ops Graph.new
  | add_v (g : Graph L) (id : Option Nat) (rv : Nat) (g' : Graph L) :
      Reachable ops g → Graph.add_v ops g id = (rv, g') → Reachable ops g'
  | add_e (g : Graph L) (id1 id2 : Nat) (d : Bool) (eid : Option Nat) (rv : Nat)
      (g' : Graph L) :
      Reachable ops g → Graph.add_e ops g id1 id2 d eid = some (rv, g') →
      Reachable ops g'
  | remove_e (g : Graph L) (id1 id2 eid : Nat) (b : Bool) (g' : Graph L) :
      Reachable ops g → Graph.remove_e ops g id1 id2 eid = some (b, g') →
      Reachable ops g'
  | remove_v (g : Graph L) (id : Nat) (b : Bool) (g' : Graph L) :
      Reachable ops g → Graph.remove_v ops g id = some (b, g') → Reachable ops g'

/-- The simple directed graph holding a single fresh vertex 0. -/
def dg0 : Graph SimpleDirectedLocale :=
  (Graph.add_v dOps Graph.new none).2

/-- The directed graph dg0 after `add_e(0, 0, directed, None)`: the directed
self-loop scenario. -/
def dgLoop : Graph SimpleDirectedLocale :=
  ((Graph.add_e dOps dg0 0 0 true none).getD (0, dg0)).2

/-- The simple undirected graph holding a single fresh vertex 0. -/
def ug0 : Graph SimpleUndirectedLocale :=
  (Graph.add_v uOps Graph.new none).2

/-- The undirected graph ug0 after `add_e(0, 0, undirected, None)`: the
undirected self-loop scenario. -/
def ugLoop : Graph SimpleUndirectedLocale :=
  ((Graph.add_e uOps ug0 0 0 false none).getD (0, ug0)).2

/-- Undirected graph built by `add_v(None)` twice: vertices 0 and 1. -/
def ugPair : Graph SimpleUndirectedLocale :=
  (Graph.add_v uOps (Graph.add_v uOps Graph.new none).2 none).2

/-- ugPair after `add_e(0, 1, undirected, None)`. -/
def ugEdge : Graph SimpleUndirectedLocale :=
  ((Graph.add_e uOps ugPair 0 1 false none).getD (0, ugPair)).2

/-- ugEdge after `add_v(Some(0))`: vertex 0 is replaced by a fresh locale while
vertex 1 still records the edge towards 0. -/
def ugGhost : Graph SimpleUndirectedLocale :=
  (Graph.add_v uOps ugEdge (some 0)).2

/-- ugGhost after `remove_v(0)`: the fresh locale of 0 records no incident
edges, so the cascade removes nothing and vertex 1 keeps a record of the now
missing vertex 0. -/
def ugGhost2 : Graph SimpleUndirectedLocale :=
  ((Graph.remove_v uOps ugGhost 0).getD (false, ugGhost)).2

/-- Directed graph built by `add_v(None)` twice: vertices 0 and 1. -/
def dgPair : Graph SimpleDirectedLocale :=
  (Graph.add_v dOps (Graph.add_v dOps Graph.new none).2 none).2

/-- dgPair after `add_e(1, 0, directed, None)`: edge from 1 to 0. -/
def dgEdge : Graph SimpleDirectedLocale :=
  ((Graph.add_e dOps dgPair 1 0 true none).getD (0, dgPair)).2

/-- dgEdge after `add_v(Some(0))`: vertex 0 replaced, vertex 1 still records the
outgoing edge towards 0. -/
def dgGhost : Graph SimpleDirectedLocale :=
  (Graph.add_v dOps dgEdge (some 0)).2

/-- dgGhost after `remove_v(0)`: vertex 1 keeps an outgoing record towards the
now missing vertex 0. -/
def dgGhost2 : Graph SimpleDirectedLocale :=
  ((Graph.remove_v dOps dgGhost 0).getD (false, dgGhost)).2

/-- Undirected graph with three automatically assigned vertices 0, 1, 2;
its `min_free_vertex_id` is 3. -/
def ug3 : Graph SimpleUndirectedLocale :=
  (Graph.add_v uOps (Graph.add_v uOps (Graph.add_v uOps Graph.new none).2 none).2 none).2

/-- ug3 after `remove_v(1)`: identifier 1 is freed below `min_free_vertex_id`. -/
def ug3r : Graph SimpleUndirectedLocale :=
  ((Graph.remove_v uOps ug3 1).getD (false, ug3)).2

/-- The graph produced by `add_e(v, v, directed, None)` on a directed graph
(the result component of the successful call). -/
def selfLoopResult (g : Graph SimpleDirectedLocale) (v : Nat) :
    Graph SimpleDirectedLocale :=
  ((Graph.add_e dOps g v v true none).getD (0, g)).2

/-- State of a previously empty directed locale right after the first (outgoing)
insertion performed by `add_e(v, v, true, None)`. -/
def selfLoopStep1 (avid v : Nat) : SimpleDirectedLocale :=
  { associated_vertex_id := avid, attributes := (),
    edges := { incoming := [], outgoing := [(v, ())], undirected := [] } }

/-- State of that locale after the second (incoming) insertion, which purges the
outgoing record and with it the loop's attribute collection. -/
def selfLoopStep2 (avid v : Nat) : SimpleDirectedLocale :=
  { associated_vertex_id := avid, attributes := (),
    edges := { incoming := [v], outgoing := [], undirected := [] } }

/-- The edge list obtained by the two locale insertions of a directed self-loop
`add_e(v, v, true, None)` when v's locale was previously empty. -/
def selfLoopEdgeList (g : Graph SimpleDirectedLocale) (avid v : Nat) :
    List (Nat × SimpleDirectedLocale) :=
  mapInsert (mapInsert g.edge_list v (selfLoopStep1 avid v)) v (selfLoopStep2 avid v)

/-! Association-list lemmas used by the invariant proofs. -/

theorem mapGet_insert_self {β : Type} (m : List (Nat × β)) (k : Nat) (v : β) :
    mapGet (mapInsert m k v) k = some v := by
  induction m with
  | nil => simp [mapInsert, mapGet]
  | cons hd tl ih =>
      by_cases h : hd.1 = k
      · simp [mapInsert, mapGet, h]
      · simpa [mapInsert, mapGet, h] using ih

theorem mapGet_insert_ne {β : Type} (m : List (Nat × β)) (k k' : Nat) (v : β)
    (h : k' ≠ k) : mapGet (mapInsert m k v) k' = mapGet m k' := by
  have hne : ¬ (k = k') := fun hh => h hh.symm
  induction m with
  | nil => simp [mapInsert, mapGet, hne]
  | cons hd tl ih =>
      obtain ⟨k0, v0⟩ := hd
      by_cases hk : k0 = k
      · subst hk
        simp [mapInsert, mapGet, hne]
      · simp [mapInsert, mapGet, hk, ih]

theorem mapContains_insert {β : Type} (m : List (Nat × β)) (k k' : Nat) (v : β) :
    mapContains (mapInsert m k v) k' = (decide (k' = k) || mapContains m k') := by
  by_cases h : k' = k
  · subst h
    simp [mapContains, mapGet_insert_self]
  · simp [mapContains, mapGet_insert_ne m k k' v h, h]

theorem mapContains_insert_of_contains {β : Type} (m : List (Nat × β)) (k k' : Nat)
    (v : β) (h : mapContains m k = true) :
    mapContains (mapInsert m k v) k' = mapContains m k' := by
  rw [mapContains_insert]
  by_cases hk : k' = k
  · subst hk
    simp [h]
  · simp [hk]

theorem mapGet_remove {β : Type} (m : List (Nat × β)) (k k' : Nat) :
    mapGet (mapRemove m k) k' = if k' = k then none else mapGet m k' := by
  induction m with
  | nil => simp [mapRemove, mapGet]
  | cons hd tl ih =>
      obtain ⟨k0, v0⟩ := hd
      by_cases hk : k0 = k
      · subst hk
        by_cases hk' : k' = k0
        · subst hk'
          simpa [mapRemove, mapGet] using ih
        · have hne : ¬ (k0 = k') := fun hh => hk' hh.symm
          simp [mapRemove, mapGet, hk', hne, ih]
      · by_cases hk' : k0 = k'
        · subst hk'
          simp [mapRemove, mapGet, hk]
        · simp [mapRemove, mapGet, hk, hk', ih]

theorem mapContains_remove {β : Type} (m : List (Nat × β)) (k k' : Nat) :
    mapContains (mapRemove m k) k' = (decide (k' ≠ k) && mapContains m k') := by
  by_cases h : k' = k
  · simp [mapContains, mapGet_remove, h]
  · simp [mapContains, mapGet_remove, h]

theorem countP_ge_succ_lt {L : Type} (m : List (Nat × L)) (k : Nat)
    (h : mapContains m k = true) :
    m.countP (fun p => decide (k + 1 ≤ p.1)) < m.countP (fun p => decide (k ≤ p.1)) := by
  induction m with
  | nil => simp [mapContains, mapGet] at h
  | cons hd tl ih =>
      obtain ⟨k0, v0⟩ := hd
      by_cases hk : k0 = k
      · subst hk
        have hle : tl.countP (fun p => decide (k0 + 1 ≤ p.1))
            ≤ tl.countP (fun p => decide (k0 ≤ p.1)) := by
          apply List.countP_mono_left
          intro a _ ha
          simp only [decide_eq_true_eq] at ha ⊢
          omega
        have h1 : ¬ (k0 + 1 ≤ k0) := by omega
        simp [List.countP_cons, h1]
        omega
      · have h' : mapContains tl k = true := by
          simpa [mapContains, mapGet, hk] using h
        have hlt := ih h'
        simp only [List.countP_cons]
        by_cases hge : k + 1 ≤ k0
        · have hge2 : k ≤ k0 := by omega
          simp [hge, hge2]
          omega
        · by_cases hge2 : k ≤ k0
          · simp [hge, hge2]
            omega
          · simp [hge, hge2]
            omega

theorem advanceFree_unused {L : Type} :
    ∀ (fuel : Nat) (m : List (Nat × L)) (k : Nat),
      m.countP (fun p => decide (k ≤ p.1)) < fuel →
      mapContains m (Graph.advanceFree m fuel k) = false := by
  intro fuel
  induction fuel with
  | zero =>
      intro m k h
      exact absurd h (Nat.not_lt_zero _)
  | succ f ih =>
      intro m k h
      by_cases hc : mapContains m k = true
      · have hlt := countP_ge_succ_lt m k hc
        have hf : m.countP (fun p => decide (k + 1 ≤ p.1)) < f := by omega
        simpa [Graph.advanceFree, hc] using ih m (k + 1) hf
      · simp only [Bool.not_eq_true] at hc
        simp [Graph.advanceFree, hc]

/-- After any `add_v`, the new `min_free_vertex_id` is not an occupied key. -/
theorem add_v_min_free_unused {L : Type} (ops : LocaleOps L) (g : Graph L)
    (id : Option Nat) :
    Graph.contains_v (Graph.add_v ops g id).2
      (Graph.add_v ops g id).2.min_free_vertex_id = false :=
  advanceFree_unused _ _ _ (Nat.lt_succ_of_le (List.countP_le_length _))

/-- A successful `add_e` keeps `min_free_vertex_id` and the occupied key set:
it only rewrites the locales of the two (already existing) endpoints. -/
theorem add_e_preserves {L : Type} (ops : LocaleOps L) (g : Graph L)
    (id1 id2 : Nat) (d : Bool) (eid : Option Nat) (rv : Nat) (g' : Graph L)
    (h : Graph.add_e ops g id1 id2 d eid = some (rv, g')) :
    g'.min_free_vertex_id = g.min_free_vertex_id ∧
    ∀ k, mapContains g'.edge_list k = mapContains g.edge_list k := by
  unfold Graph.add_e at h
  by_cases h1 : Graph.contains_v g id1
  · by_cases h2 : Graph.contains_v g id2
    · simp only [h1, h2, if_true] at h
      have h1' : mapContains g.edge_list id1 = true := h1
      have h2' : mapContains g.edge_list id2 = true := h2
      obtain ⟨l1, hl1⟩ := Option.isSome_iff_exists.mp h1'
      rw [hl1] at h
      simp only [Option.some.injEq, Prod.mk.injEq] at h
      set el1 := mapInsert g.edge_list id1
        (ops.add_e l1 id2
          (if d then EdgeToVertexRelation.Outgoing else EdgeToVertexRelation.Undirected)
          eid (d || decide (id1 ≤ id2))).2 with hel1
      have hc1 : ∀ k, mapContains el1 k = mapContains g.edge_list k := by
        intro k
        exact mapContains_insert_of_contains g.edge_list id1 k _ h1'
      have h2'' : mapContains el1 id2 = true := by
        rw [hc1]
        exact h2'
      obtain ⟨l2, hl2⟩ := Option.isSome_iff_exists.mp h2''
      rw [hl2] at h
      simp only [Option.some.injEq, Prod.mk.injEq] at h
      obtain ⟨hrv, hg'⟩ := h
      subst hg'
      refine ⟨rfl, ?_⟩
      intro k
      calc mapContains (mapInsert el1 id2 _) k
          = mapContains el1 k := mapContains_insert_of_contains el1 id2 k _ h2''
        _ = mapContains g.edge_list k := hc1 k
    · simp [h1, h2] at h
  · simp [h1] at h

/-- A successful `remove_e` keeps `min_free_vertex_id` and the occupied key set. -/
theorem remove_e_preserves {L : Type} (ops : LocaleOps L) (g : Graph L)
    (id1 id2 eid : Nat) (b : Bool) (g' : Graph L)
    (h : Graph.remove_e ops g id1 id2 eid = some (b, g')) :
    g'.min_free_vertex_id = g.min_free_vertex_id ∧
    ∀ k, mapContains g'.edge_list k = mapContains g.edge_list k := by
  unfold Graph.remove_e at h
  by_cases h1 : mapContains g.edge_list id1
  · by_cases h2 : mapContains g.edge_list id2
    · simp only [h1, h2, if_true] at h
      obtain ⟨l1, hl1⟩ := Option.isSome_iff_exists.mp h1
      rw [hl1] at h
      dsimp only at h
      set el1 := mapInsert g.edge_list id1 (ops.remove_e l1 id2).2 with hel1
      have hc1 : ∀ k, mapContains el1 k = mapContains g.edge_list k := by
        intro k
        exact mapContains_insert_of_contains g.edge_list id1 k _ h1
      have h2'' : mapContains el1 id2 = true := by
        rw [hc1]
        exact h2
      obtain ⟨l2, hl2⟩ := Option.isSome_iff_exists.mp h2''
      rw [hl2] at h
      dsimp only at h
      simp only [Option.some.injEq, Prod.mk.injEq] at h
      obtain ⟨hb, hg'⟩ := h
      subst hg'
      refine ⟨rfl, ?_⟩
      intro k
      calc mapContains (mapInsert el1 id2 _) k
          = mapContains el1 k := mapContains_insert_of_contains el1 id2 k _ h2''
        _ = mapContains g.edge_list k := hc1 k
    · simp [h1, h2] at h
  · simp [h1] at h

/-- The cascading edge removal of `remove_v` keeps `min_free_vertex_id` and the
occupied key set. -/
theorem removeAllEdges_preserves {L : Type} (ops : LocaleOps L) :
    ∀ (es : List EdgeIteratorItem) (g g' : Graph L),
      Graph.removeAllEdges ops g es = some g' →
      g'.min_free_vertex_id = g.min_free_vertex_id ∧
      ∀ k, mapContains g'.edge_list k = mapContains g.edge_list k := by
  intro es
  induction es with
  | nil =>
      intro g g' h
      simp only [Graph.removeAllEdges, Option.some.injEq] at h
      subst h
      exact ⟨rfl, fun _ => rfl⟩
  | cons e rest ih =>
      intro g g' h
      simp only [Graph.removeAllEdges] at h
      cases hre : Graph.remove_e ops g e.id1 e.id2 e.edge_id with
      | none => rw [hre] at h; exact absurd h (by simp)
      | some p =>
          rw [hre] at h
          obtain ⟨hm1, hk1⟩ := remove_e_preserves ops g e.id1 e.id2 e.edge_id p.1 p.2 hre
          obtain ⟨hm2, hk2⟩ := ih p.2 g' h
          refine ⟨hm2.trans hm1, fun k => (hk2 k).trans (hk1 k)⟩

/-- One step of the key invariant: every mutation leaves `min_free_vertex_id`
unused. The `remove_v` case either keeps the invariant or lowers the field to
the (now unoccupied) removed identifier. -/
theorem remove_v_min_free_unused {L : Type} (ops : LocaleOps L) (g : Graph L)
    (id : Nat) (b : Bool) (g' : Graph L)
    (hinv : mapContains g.edge_list g.min_free_vertex_id = false)
    (h : Graph.remove_v ops g id = some (b, g')) :
    mapContains g'.edge_list g'.min_free_vertex_id = false := by
  unfold Graph.remove_v at h
  by_cases hc : mapContains g.edge_list id
  · rw [hc] at h
    rw [if_neg (by simp : ¬ ((!true) = true))] at h
    cases hget : mapGet g.edge_list id with
    | none =>
        rw [hget] at h
        exact absurd h (by simp)
    | some locale =>
        rw [hget] at h
        dsimp only at h
        cases hrem : Graph.removeAllEdges ops g (ops.iter_incident_e locale) with
        | none => rw [hrem] at h; exact absurd h (by simp)
        | some g1 =>
            rw [hrem] at h
            simp only [Option.some.injEq, Prod.mk.injEq] at h
            obtain ⟨hb, hg'⟩ := h
            subst hg'
            obtain ⟨hm1, hk1⟩ := removeAllEdges_preserves ops _ g g1 hrem
            by_cases hcmp : g1.min_free_vertex_id > id
            · simp only [hcmp, if_true]
              rw [mapContains_remove]
              simp
            · simp only [hcmp, if_false]
              rw [mapContains_remove, hk1, hm1]
              simp [hinv]
  · have hcf : mapContains g.edge_list id = false := by simpa using hc
    rw [hcf] at h
    rw [if_pos (by simp : ((!false) = true))] at h
    simp only [Option.some.injEq, Prod.mk.injEq] at h
    obtain ⟨hb, hg'⟩ := h
    subst hg'
    exact hinv

/-- The central invariant behind C6: on every reachable graph,
`min_free_vertex_id` is unused. -/
theorem reachable_min_free_unused {L : Type} (ops : LocaleOps L) (g : Graph L)
    (h : Reachable ops g) :
    Graph.contains_v g g.min_free_vertex_id = false := by
  induction h with
  | empty => rfl
  | add_v g0 id rv g' _ heq ih =>
      have := add_v_min_free_unused ops g0 id
      rw [heq] at this
      exact this
  | add_e g0 id1 id2 d eid rv g' _ heq ih =>
      obtain ⟨hm, hk⟩ := add_e_preserves ops g0 id1 id2 d eid rv g' heq
      show mapContains g'.edge_list g'.min_free_vertex_id = false
      rw [hm, hk]
      exact ih
  | remove_e g0 id1 id2 eid b g' _ heq ih =>
      obtain ⟨hm, hk⟩ := remove_e_preserves ops g0 id1 id2 eid b g' heq
      show mapContains g'.edge_list g'.min_free_vertex_id = false
      rw [hm, hk]
      exact ih
  | remove_v g0 id b g' _ heq ih =>
      exact remove_v_min_free_unused ops g0 id b g' ih heq

/-- C1. Edge ownership invariant: after every public mutation, every live edge is
recorded in both endpoints' locales with its attribute collection in exactly one
of them (smaller endpoint if undirected, source endpoint if directed), and for
every edge added via add_e exactly one endpoint's locale e_attrs yields a value.
This theorem refutes the claim: on a directed graph holding the single vertex 0,
`add_e(0, 0, true, None)` succeeds and the edge is live (contains_e reports
Directed2to1), yet the locale of vertex 0 — the sole endpoint of the loop, hence
both its source and its target — answers `none` to e_attrs: the attribute
collection exists in neither endpoint's locale, because the second (incoming)
insertion of add_e purged the outgoing record holding it. -/
theorem C1_self_loop_attrs_stored_nowhere :
    Graph.add_e dOps dg0 0 0 true none = some (0, dgLoop)
    ∧ Graph.contains_e dOps dgLoop 0 0 0 = some EdgeDirection.Directed2to1
    ∧ (mapGet dgLoop.edge_list 0).map (fun l => dOps.e_attrs l 0) = some none := by
  decide

/-- C2. The claim that count_e() returns exactly the number of live edges on
every reachable graph is refuted: on an undirected graph with the single vertex
0, after `add_e(0, 0, false, None)` the self-loop is live (contains_e reports
Undirected), but the loop is recorded once in the only locale, so the
sum-of-incident-counts-halved computation of count_e yields 0 instead of 1. -/
theorem C2_undirected_self_loop_miscounted :
    Graph.add_e uOps ug0 0 0 false none = some (0, ugLoop)
    ∧ Graph.contains_e uOps ugLoop 0 0 0 = some EdgeDirection.Undirected
    ∧ Graph.count_e uOps ugLoop = 0 := by
  decide

/-- C3. The claim that is_strongly_connected() always returns whether the graph
is strongly connected is refuted on a reachable graph: after
`add_v(None)` twice, `add_e(1, 0, true)`, `add_v(Some(0))` (which replaces
vertex 0 but leaves vertex 1's outgoing record towards 0 in place) and
`remove_v(0)` (which cascades over the empty fresh locale only), the remaining
single-vertex graph — strongly connected, so the claim demands `true` — makes
the traversal push the missing neighbour 0 and panic when unwrapping its
adjacency, instead of returning a boolean. -/
theorem C3_is_strongly_connected_panics_on_ghost :
    Graph.remove_v dOps dgGhost 0 = some (true, dgGhost2)
    ∧ Graph.iter_v dgGhost2 = [1]
    ∧ Graph.contains_v dgGhost2 0 = false
    ∧ Graph.is_strongly_connected dOps dgGhost2 = RunResult.panic := by
  decide

/-- C4. The claim that iter_e() produces each logical live edge exactly once on
every reachable graph is refuted: on the directed self-loop graph the edge is
live (contains_e reports Directed2to1), but it is stored only as an incoming
record, which no locale's owned-edges iterator emits, so iter_e() produces it
zero times. -/
theorem C4_self_loop_missing_from_iter_e :
    Graph.contains_e dOps dgLoop 0 0 0 = some EdgeDirection.Directed2to1
    ∧ Graph.iter_e dOps dgLoop = [] := by
  decide

/-- C5. The claim that e_attrs returns Ok for every existing edge (never fatal)
is refuted: on the directed self-loop graph the edge exists — contains_e yields
a direction — yet e_attrs routes to the target locale, whose answer is `None`,
and the source's `unwrap()` panics instead of returning Ok or a not-found
error. -/
theorem C5_e_attrs_panics_on_live_edge :
    Graph.contains_e dOps dgLoop 0 0 0 = some EdgeDirection.Directed2to1
    ∧ Graph.e_attrs dOps dgLoop 0 0 0 = AttrsResult.panic := by
  decide

/-- C6. After every public mutation, min_free_vertex_id is an unused identifier
or the space's minimum (on every reachable graph it is in fact always unused),
and after remove_v(id) of an existing vertex with id below min_free_vertex_id
the field drops to id, so the next add_v(None) assigns id. -/
theorem C6_min_free_vertex_id_invariant :
    (∀ {L : Type} (ops : LocaleOps L) (g : Graph L), Reachable ops g →
      (Graph.contains_v g g.min_free_vertex_id = false ∨ g.min_free_vertex_id = 0))
    ∧ (∀ {L : Type} (ops : LocaleOps L) (g : Graph L) (id : Nat) (b : Bool)
        (g' : Graph L),
        Graph.contains_v g id = true → id < g.min_free_vertex_id →
        Graph.remove_v ops g id = some (b, g') →
        g'.min_free_vertex_id = id ∧ (Graph.add_v ops g' none).1 = id) := by
  constructor
  · intro L ops g h
    exact Or.inl (reachable_min_free_unused ops g h)
  · intro L ops g id b g' hcont hlt h
    unfold Graph.remove_v at h
    have hcont' : mapContains g.edge_list id = true := hcont
    rw [hcont'] at h
    rw [if_neg (by simp : ¬ ((!true) = true))] at h
    obtain ⟨l, hl⟩ := Option.isSome_iff_exists.mp hcont'
    rw [hl] at h
    dsimp only at h
    cases hrem : Graph.removeAllEdges ops g (ops.iter_incident_e l) with
    | none =>
        rw [hrem] at h
        exact absurd h (by simp)
    | some g1 =>
        rw [hrem] at h
        simp only [Option.some.injEq, Prod.mk.injEq] at h
        obtain ⟨hb, hg'⟩ := h
        obtain ⟨hm1, _⟩ := removeAllEdges_preserves ops _ g g1 hrem
        have hgt : g1.min_free_vertex_id > id := by
          rw [hm1]
          exact hlt
        subst hg'
        constructor
        · simp [hgt]
        · simp [Graph.add_v, hgt]

/-- Witness for C6: the first part applied to the reachable graph ugGhost2, the
second to the removal of vertex 1 from the three-vertex graph ug3, where the
freed identifier 1 is indeed assigned by the following add_v(None). -/
theorem C6_min_free_vertex_id_invariant_witness :
    (Graph.contains_v ugGhost2 ugGhost2.min_free_vertex_id = false
      ∨ ugGhost2.min_free_vertex_id = 0)
    ∧ (Graph.contains_v ug3 1 = true ∧ 1 < ug3.min_free_vertex_id
        ∧ ug3r.min_free_vertex_id = 1 ∧ (Graph.add_v uOps ug3r none).1 = 1) := by
  have hreach : Reachable uOps ugGhost2 := by
    apply Reachable.remove_v ugGhost 0 true ugGhost2 ?_ (by decide)
    apply Reachable.add_v ugEdge (some 0) 0 ugGhost ?_ (by decide)
    apply Reachable.add_e ugPair 0 1 false none 0 ugEdge ?_ (by decide)
    apply Reachable.add_v ug0 none 1 ugPair ?_ (by decide)
    exact Reachable.add_v Graph.new none 0 ug0 Reachable.empty (by decide)
  have h2 := C6_min_free_vertex_id_invariant.2 uOps ug3 1 true ug3r
    (by decide) (by decide) (by decide)
  exact ⟨C6_min_free_vertex_id_invariant.1 uOps ugGhost2 hreach,
    by decide, by decide, h2.1, h2.2⟩

/-- C7. The claim that add_v(Some(id)) on an existing id discards all incident
edges so that afterwards no other vertex's locale records an edge to id is
refuted: after building the undirected edge between 0 and 1 and replacing
vertex 0, the fresh locale of 0 has degree 0, but vertex 1 still records the
edge towards 0 (degree 1, contains_e(1, 0) still reports Undirected). -/
theorem C7_replace_keeps_ghost_edge :
    Graph.add_v uOps ugEdge (some 0) = (0, ugGhost)
    ∧ Graph.v_degree uOps ugGhost 0 = some 0
    ∧ Graph.v_degree uOps ugGhost 1 = some 1
    ∧ Graph.contains_e uOps ugGhost 1 0 0 = some EdgeDirection.Undirected := by
  decide

/-- C8. Degree decomposition: for every vertex present in the graph,
v_degree equals v_degree_in + v_degree_out + v_degree_undir, in both the
simple-undirected and the simple-directed family, on every graph state. -/
theorem C8_degree_decomposition :
    (∀ (g : Graph SimpleUndirectedLocale) (v : Nat), Graph.contains_v g v = true →
      ∃ a b c : Nat,
        Graph.v_degree_in uOps g v = some a ∧ Graph.v_degree_out uOps g v = some b
        ∧ Graph.v_degree_undir uOps g v = some c
        ∧ Graph.v_degree uOps g v = some (a + b + c))
    ∧ (∀ (g : Graph SimpleDirectedLocale) (v : Nat), Graph.contains_v g v = true →
      ∃ a b c : Nat,
        Graph.v_degree_in dOps g v = some a ∧ Graph.v_degree_out dOps g v = some b
        ∧ Graph.v_degree_undir dOps g v = some c
        ∧ Graph.v_degree dOps g v = some (a + b + c)) := by
  constructor
  · intro g v h
    obtain ⟨l, hl⟩ := Option.isSome_iff_exists.mp h
    refine ⟨0, 0, l.edges.length, ?_, ?_, ?_, ?_⟩
    · simp [Graph.v_degree_in, hl, uOps, SimpleUndirectedLocale.count_neighbours_in]
    · simp [Graph.v_degree_out, hl, uOps, SimpleUndirectedLocale.count_neighbours_out]
    · simp [Graph.v_degree_undir, hl, uOps, SimpleUndirectedLocale.count_neighbours_undir]
    · simp [Graph.v_degree, hl, uOps, SimpleUndirectedLocale.count_neighbours]
  · intro g v h
    obtain ⟨l, hl⟩ := Option.isSome_iff_exists.mp h
    refine ⟨l.edges.incoming.length, l.edges.outgoing.length,
      l.edges.undirected.length, ?_, ?_, ?_, ?_⟩
    · simp [Graph.v_degree_in, hl, dOps, SimpleDirectedLocale.count_neighbours_in]
    · simp [Graph.v_degree_out, hl, dOps, SimpleDirectedLocale.count_neighbours_out]
    · simp [Graph.v_degree_undir, hl, dOps, SimpleDirectedLocale.count_neighbours_undir]
    · simp [Graph.v_degree, hl, dOps, SimpleDirectedLocale.count_neighbours]

/-- Witness for C8 at vertex 0 of the undirected edge graph and at vertex 1 of
the directed edge graph. -/
theorem C8_degree_decomposition_witness :
    Graph.contains_v ugEdge 0 = true ∧ Graph.contains_v dgEdge 1 = true
    ∧ (∃ a b c : Nat,
        Graph.v_degree_in uOps ugEdge 0 = some a
        ∧ Graph.v_degree_out uOps ugEdge 0 = some b
        ∧ Graph.v_degree_undir uOps ugEdge 0 = some c
        ∧ Graph.v_degree uOps ugEdge 0 = some (a + b + c))
    ∧ (∃ a b c : Nat,
        Graph.v_degree_in dOps dgEdge 1 = some a
        ∧ Graph.v_degree_out dOps dgEdge 1 = some b
        ∧ Graph.v_degree_undir dOps dgEdge 1 = some c
        ∧ Graph.v_degree dOps dgEdge 1 = some (a + b + c)) :=
  ⟨by decide, by decide,
    C8_degree_decomposition.1 ugEdge 0 (by decide),
    C8_degree_decomposition.2 dgEdge 1 (by decide)⟩

/-- C9. The claim that is_connected() always returns whether the graph is
connected ignoring directions is refuted on a reachable graph: after
`add_v(None)` twice, `add_e(0, 1, false)`, `add_v(Some(0))` and `remove_v(0)`,
the remaining single-vertex graph — connected, so the claim demands `true` —
makes the breadth-first traversal enqueue the missing recorded neighbour 0 and
panic when unwrapping its locale lookup, instead of returning a boolean. -/
theorem C9_is_connected_panics_on_ghost :
    Graph.remove_v uOps ugGhost 0 = some (true, ugGhost2)
    ∧ Graph.iter_v ugGhost2 = [1]
    ∧ Graph.contains_v ugGhost2 0 = false
    ∧ Graph.is_connected uOps ugGhost2 = RunResult.panic := by
  decide

/-- C10. Directed self-loop edge case: on a simple directed graph containing an
isolated vertex v, add_e(v, v, true, None) returns Ok(0) but records the loop
one-sidedly — the incoming insertion purges the outgoing record — so afterwards
contains_e(v, v) reports Directed2to1, v_degree(v) = 1, v_degree_in(v) = 1 and
v_degree_out(v) = 0. -/
theorem C10_directed_self_loop_one_sided :
    ∀ (g : Graph SimpleDirectedLocale) (v : Nat),
      Graph.contains_v g v = true → Graph.v_degree dOps g v = some 0 →
      Graph.add_e dOps g v v true none = some (0, selfLoopResult g v)
      ∧ Graph.contains_e dOps (selfLoopResult g v) v v 0
          = some EdgeDirection.Directed2to1
      ∧ Graph.v_degree dOps (selfLoopResult g v) v = some 1
      ∧ Graph.v_degree_in dOps (selfLoopResult g v) v = some 1
      ∧ Graph.v_degree_out dOps (selfLoopResult g v) v = some 0 := by
  intro g v hc hdeg
  obtain ⟨l, hl⟩ := Option.isSome_iff_exists.mp hc
  obtain ⟨avid, attrs, inc, out, und⟩ := l
  cases attrs
  have hdeg' : inc.length + out.length + und.length = 0 := by
    have h2 : (mapGet g.edge_list v).map dOps.count_neighbours = some 0 := hdeg
    rw [hl] at h2
    simpa [dOps, SimpleDirectedLocale.count_neighbours] using h2
  have hinc : inc = [] := List.length_eq_zero.mp (by omega)
  have hout : out = [] := List.length_eq_zero.mp (by omega)
  have hund : und = [] := List.length_eq_zero.mp (by omega)
  subst hinc
  subst hout
  subst hund
  have hadd : Graph.add_e dOps g v v true none =
      some (0, Graph.mk (selfLoopEdgeList g avid v) g.min_free_vertex_id) := by
    have hc' : mapContains g.edge_list v = true := hc
    unfold Graph.add_e
    simp only [Graph.contains_v, hc', if_true]
    rw [hl]
    dsimp only
    rw [mapGet_insert_self]
    simp [dOps, SimpleDirectedLocale.add_e, setRemove, mapRemove, setInsert,
      mapInsert, selfLoopStep1, selfLoopStep2, selfLoopEdgeList]
  have hres : selfLoopResult g v =
      Graph.mk (selfLoopEdgeList g avid v) g.min_free_vertex_id := by
    unfold selfLoopResult
    rw [hadd]
    rfl
  refine ⟨hadd.trans (by rw [hres]), ?_, ?_, ?_, ?_⟩
  · rw [hres]
    simp [Graph.contains_e, selfLoopEdgeList, mapGet_insert_self, dOps,
      SimpleDirectedLocale.e_direction, selfLoopStep2]
  · rw [hres]
    simp [Graph.v_degree, selfLoopEdgeList, mapGet_insert_self, dOps,
      SimpleDirectedLocale.count_neighbours, selfLoopStep2]
  · rw [hres]
    simp [Graph.v_degree_in, selfLoopEdgeList, mapGet_insert_self, dOps,
      SimpleDirectedLocale.count_neighbours_in, selfLoopStep2]
  · rw [hres]
    simp [Graph.v_degree_out, selfLoopEdgeList, mapGet_insert_self, dOps,
      SimpleDirectedLocale.count_neighbours_out, selfLoopStep2]

/-- Witness for C10 at the one-vertex directed graph dg0: its vertex 0 is
present and isolated, and the resulting graph is the directed self-loop graph
analysed by the other theorems. -/
theorem C10_directed_self_loop_one_sided_witness :
    Graph.contains_v dg0 0 = true ∧ Graph.v_degree dOps dg0 0 = some 0
    ∧ (Graph.add_e dOps dg0 0 0 true none = some (0, selfLoopResult dg0 0)
        ∧ Graph.contains_e dOps (selfLoopResult dg0 0) 0 0 0
            = some EdgeDirection.Directed2to1
        ∧ Graph.v_degree dOps (selfLoopResult dg0 0) 0 = some 1
        ∧ Graph.v_degree_in dOps (selfLoopResult dg0 0) 0 = some 1
        ∧ Graph.v_degree_out dOps (selfLoopResult dg0 0) 0 = some 0) :=
  ⟨by decide, by decide,
    C10_directed_self_loop_one_sided dg0 0 (by decide) (by decide)⟩

end CrabNets
